import Mathlib

/-!
A shallow embedding of the PKGBUILD parser/validator of `archlinux/aur/Package/pkgbuild.py`
(the `Package` class: `load`, `validate`, `is_valid`, `has_errors`, `has_warnings`,
`__setitem__`).  Field values extracted from a PKGBUILD are either scalar strings or
lists of strings; the field mapping `self._data` is embedded as an association list
looked up front-to-back, so that a prepended entry overrides an older one exactly as a
Python dict update does.  Python exceptions (`KeyError` from `self._data[...]`,
`TypeError` from `re.match` on a non-string, the `InvalidPackage` raised by `load`, and
an exception raised by `exec` on a malformed evaluator output line) are embedded as an
explicit `PyErr` value returned next to the partially mutated object state.
-/

set_option autoImplicit false

namespace Aur

/-- A value in the `_data` mapping of a package: PKGBUILD variables are either scalar
strings or arrays of strings. -/
inductive Value where
  | str (s : String)
  | list (l : List String)
deriving DecidableEq, Repr

/-- Python truthiness of a field value: the empty string and the empty list are falsy. -/
def Value.truthy : Value → Bool
  | .str s => !s.data.isEmpty
  | .list l => !l.isEmpty

/-- Python `len` of a field value (character count of a string, length of a list). -/
def Value.len : Value → Nat
  | .str s => s.data.length
  | .list l => l.length

/-- The `self._data` mapping, as an association list; `List.lookup` finds the most
recently prepended binding, mirroring dict lookup after updates. -/
abbrev Data := List (String × Value)

/-- Python exceptions that the embedded code can raise. -/
inductive PyErr where
  | keyError (k : String)
  | typeError
  | invalidPackage (msg : String)
  | execError
deriving DecidableEq, Repr

/-- The character class of the pattern `[\w\d_-]` compiled without `re.UNICODE`
on a Python 2 `str`: ASCII letters, digits, underscore and hyphen. -/
def isWordChar (c : Char) : Bool :=
  c.isAlpha || c.isDigit || c = '_' || c = '-'

/-- The character class of the pattern `[a-z\d_-]`. -/
def isLowerWordChar (c : Char) : Bool :=
  c.isLower || c.isDigit || c = '_' || c = '-'

/-- `re.compile("^[\w\d_-]+$").match(s)` succeeds: one or more word characters spanning
the whole string, where Python's `$` also matches just before one trailing newline. -/
def reFullNameMatch (cs : List Char) : Bool :=
  let b := if cs.getLast? = some '\n' then cs.dropLast else cs
  !b.isEmpty && b.all isWordChar

/-- `re.compile("[a-z\d_-]+").match(s)` succeeds: `re.match` anchors only at the start,
so this just asks whether the first character is in the class. -/
def reLowerStartMatch : List Char → Bool
  | [] => false
  | c :: _ => isLowerWordChar c

/-- `self._required_fields` from `Package.__init__`. -/
def requiredFields : List String :=
  ["name", "description", "version", "release", "licenses", "arch"]

/-- The checksum field names iterated by `Package.validate`. -/
def checksumFields : List String :=
  ["md5sums", "sha1sums", "sha256sums", "sha384sums", "sha512sums"]

/-- Every key that `Package.validate` reads from `self._data`. -/
def accessedFields : List String :=
  requiredFields ++ ["source"] ++ checksumFields

/-- The error message `'%s field is required' % field`. -/
def reqMsg (f : String) : String := f ++ " field is required"

/-- The error message `'amount of %s and sources does not match' % checksum`. -/
def csMsg (c : String) : String := "amount of " ++ c ++ " and sources does not match"

/-- The required-field loop of `Package.validate`: for each field, `self._data[field]`
raises `KeyError` when the key is absent, and a falsy value appends one error.  Returns
the errors appended before a raise, and the raised exception if any. -/
def requiredErrorsLoop (d : Data) : List String → List String × Option PyErr
  | [] => ([], none)
  | f :: rest =>
    match List.lookup f d with
    | none => ([], some (.keyError f))
    | some v =>
      let head := if v.truthy then [] else [reqMsg f]
      let tail := requiredErrorsLoop d rest
      (head ++ tail.1, tail.2)

/-- The checksum loop of `Package.validate`: for each checksum field (raising `KeyError`
when absent), a truthy value sets `found_sums` and compares its length against
`len(self._data['source'])` (raising `KeyError` when `source` is absent).  Returns the
appended errors, the final `found_sums` flag, and the raised exception if any. -/
def checksumLoop (d : Data) : List String → Bool → List String × Bool × Option PyErr
  | [], found => ([], found, none)
  | c :: rest, found =>
    match List.lookup c d with
    | none => ([], found, some (.keyError c))
    | some v =>
      if v.truthy then
        match List.lookup "source" d with
        | none => ([], true, some (.keyError "source"))
        | some src =>
          let head := if v.len ≠ src.len then [csMsg c] else []
          let tail := checksumLoop d rest true
          (head ++ tail.1, tail.2)
      else
        checksumLoop d rest found

/-- The body of `Package.validate` as a function of `self._data`: the errors and
warnings appended (in order), and the exception raised, if any.  Mirrors the source
line by line: required-field loop; name full match (error) else lower-case prefix match
(warning), raising `TypeError` when the name value is not a string; description length
warning; checksum loop; missing-checksums error. -/
def validateCore (d : Data) : List String × List String × Option PyErr :=
  let req := requiredErrorsLoop d requiredFields
  match req.2 with
  | some e => (req.1, [], some e)
  | none =>
    match List.lookup "name" d with
    | none => (req.1, [], some (.keyError "name"))
    | some (.list _) => (req.1, [], some .typeError)
    | some (.str nm) =>
      let nameErrs := if !reFullNameMatch nm.data then ["package name must be alphanumeric"] else []
      let nameWarns := if reFullNameMatch nm.data && !reLowerStartMatch nm.data then ["package name should be in lower case"] else []
      match List.lookup "description" d with
      | none => (req.1 ++ nameErrs, nameWarns, some (.keyError "description"))
      | some dv =>
        let descWarns := if dv.truthy && dv.len > 80 then ["description should not exceed 80 characters"] else []
        let cs := checksumLoop d checksumFields false
        match cs.2.2 with
        | some e => (req.1 ++ nameErrs ++ cs.1, nameWarns ++ descWarns, some e)
        | none =>
          match List.lookup "source" d with
          | none => (req.1 ++ nameErrs ++ cs.1, nameWarns ++ descWarns, some (.keyError "source"))
          | some sv =>
            let srcErrs := if sv.truthy && !cs.2.1 then ["sources exist without checksums"] else []
            (req.1 ++ nameErrs ++ cs.1 ++ srcErrs, nameWarns ++ descWarns, none)

/-- The mutable state of a `Package` instance: the `_data` mapping and the validation
bookkeeping initialised in `__init__`. -/
structure Package where
  _data : Data
  _validated : Bool
  _is_valid : Bool
  _errors : List String
  _warnings : List String
deriving DecidableEq, Repr

/-- A `Package` as `__init__` leaves it once `load` has filled `_data`. -/
def freshPackage (d : Data) : Package :=
  { _data := d, _validated := false, _is_valid := false, _errors := [], _warnings := [] }

/-- `Package.has_errors`. -/
def Package.has_errors (p : Package) : Bool :=
  p._errors.length > 0

/-- `Package.has_warnings`. -/
def Package.has_warnings (p : Package) : Bool :=
  p._warnings.length > 0

/-- `Package.validate`: appends the computed findings to the existing `_errors` and
`_warnings` lists; when no exception is raised it sets `_validated` and, only when the
(total) error list is empty, sets `_is_valid` to true.  A raise leaves the flags
untouched but keeps the findings appended before the raising access.  Returns the
mutated object and the raised exception, if any. -/
def Package.validate (p : Package) : Package × Option PyErr :=
  let core := validateCore p._data
  match core.2.2 with
  | some e =>
    ({ p with _errors := p._errors ++ core.1, _warnings := p._warnings ++ core.2.1 }, some e)
  | none =>
    let p' := { p with
      _errors := p._errors ++ core.1,
      _warnings := p._warnings ++ core.2.1,
      _validated := true }
    (if p'.has_errors then p' else { p' with _is_valid := true }, none)

/-- `Package.is_valid`: validates first when `_validated` is not yet set (propagating
any exception raised by `validate`), then reports the cached `_is_valid` flag. -/
def Package.is_valid (p : Package) : Package × Except PyErr Bool :=
  if p._validated then (p, .ok p._is_valid)
  else
    let r := p.validate
    match r.2 with
    | some e => (r.1, .error e)
    | none => (r.1, .ok r.1._is_valid)

/-- `Package.__setitem__`: `self._data[key] = value`; prepending overrides any older
binding for `key` under front-to-back lookup. -/
def Package.setitem (p : Package) (k : String) (v : Value) : Package :=
  { p with _data := (k, v) :: p._data }

/-- `Package.get_errors`. -/
def Package.get_errors (p : Package) : List String :=
  p._errors

/-- `Package.get_warnings`. -/
def Package.get_warnings (p : Package) : List String :=
  p._warnings

/-! ## The `Package.load` extractor

`load` runs outside the pure world: it opens tar archives, creates a temporary
directory, spawns `parsepkgbuild.sh` and reads its standard output.  The embedding
abstracts a file's content as a value of an arbitrary type `α` and the external
evaluator as a function `E : α → List (Option Data)`: one list element per line of
subprocess standard output, `some entries` when `exec 'temp = dict(...)'` succeeds on
that line and yields the dict `entries`, `none` when `exec` raises.  The order of the
observable side effects of one `load` call is recorded as a list of `Event`s, and the
lifecycle of the temporary extracted file as two booleans. -/

/-- An observable side effect of `Package.load`, in program order. -/
inductive Event where
  | extractTemp
  | spawn
  | wait
  | readOutput
  | removeTemp
deriving DecidableEq, Repr

/-- The input of `Package.load`: a plain PKGBUILD file, or a `.tar.gz` archive (the
suffix test on the path selects the constructor) whose members are named contents. -/
inductive SrcFile (α : Type) where
  | plain (content : α)
  | tar (members : List (String × α))

/-- `needle` occurs as a contiguous substring: `haystack.find(needle) >= 0`. -/
def startsList (needle : List Char) (haystack : List Char) : Bool :=
  match needle, haystack with
  | [], _ => true
  | _ :: _, [] => false
  | a :: as, b :: bs => a = b && startsList as bs

/-- Substring test used for `member.find("PKGBUILD") >= 0`. -/
def hasSubList (needle : List Char) : List Char → Bool
  | [] => startsList needle []
  | l@(_ :: rest) => startsList needle l || hasSubList needle rest

/-- The member-scanning loop of `load`: the first member of the archive whose name
contains `"PKGBUILD"` as a substring, with its content. -/
def findMember {α : Type} : List (String × α) → Option (String × α)
  | [] => none
  | (n, c) :: rest =>
    if hasSubList "PKGBUILD".data n.data then some (n, c) else findMember rest

/-- The `for expression in process.stdout.readlines()` loop: each successfully parsed
line updates `self._data` (new entries override old ones under front-to-back lookup);
a malformed line raises out of the loop, keeping the updates made so far. -/
def execLines : Data → List (Option Data) → Data × Option PyErr
  | d, [] => (d, none)
  | d, none :: _ => (d, some .execError)
  | d, some es :: rest => execLines (es ++ d) rest

/-- The outcome of one `Package.load` call: the resulting field mapping or the raised
exception, whether a temporary extracted file was created, whether it was removed, and
the ordered side effects. -/
structure LoadResult where
  result : Except PyErr Data
  tempCreated : Bool
  tempDeleted : Bool
  events : List Event
deriving Repr

/-- `Package.load`, under evaluator `E`.  A plain file goes straight to the subprocess;
a tar archive is scanned for a `PKGBUILD` member, raising `InvalidPackage` when there is
none, and otherwise extracting that member to a temporary file first.  The subprocess is
spawned, then `process.wait()` is called, and only then is its standard output read.
The temporary file is removed by `os.remove` only after the read loop completes. -/
def load {α : Type} (file : SrcFile α) (E : α → List (Option Data)) : LoadResult :=
  match file with
  | .plain c =>
    let r := execLines [] (E c)
    { result := match r.2 with | some e => .error e | none => .ok r.1,
      tempCreated := false, tempDeleted := false,
      events := [.spawn, .wait, .readOutput] }
  | .tar members =>
    match findMember members with
    | none =>
      { result := .error (.invalidPackage "tar file does not contain a PKGBUILD"),
        tempCreated := false, tempDeleted := false, events := [] }
    | some (_, c) =>
      let r := execLines [] (E c)
      match r.2 with
      | some e =>
        { result := .error e, tempCreated := true, tempDeleted := false,
          events := [.extractTemp, .spawn, .wait, .readOutput] }
      | none =>
        { result := .ok r.1, tempCreated := true, tempDeleted := true,
          events := [.extractTemp, .spawn, .wait, .readOutput, .removeTemp] }

/-! ## Helper lemmas -/

theorem count_ite_split (a : String) (p : Prop) [Decidable p] (l₁ l₂ : List String) :
    List.count a (if p then l₁ else l₂) = if p then List.count a l₁ else List.count a l₂ := by
  split <;> rfl

theorem count_single (a x : String) :
    List.count a [x] = if a = x then 1 else 0 := by
  by_cases h : a = x <;> simp [h, List.count_cons, List.count_nil]

/-- With every key that `validate` reads present in the mapping and a string-valued
`name`, `validateCore` raises nothing and its findings are exactly one block per rule,
in source order. -/
theorem validateCore_char (d : Data) (nm : String)
    (dv vv rv lv av sv c1 c2 c3 c4 c5 : Value)
    (hn : List.lookup "name" d = some (.str nm))
    (hd : List.lookup "description" d = some dv)
    (hv : List.lookup "version" d = some vv)
    (hr : List.lookup "release" d = some rv)
    (hl : List.lookup "licenses" d = some lv)
    (ha : List.lookup "arch" d = some av)
    (hs : List.lookup "source" d = some sv)
    (h1 : List.lookup "md5sums" d = some c1)
    (h2 : List.lookup "sha1sums" d = some c2)
    (h3 : List.lookup "sha256sums" d = some c3)
    (h4 : List.lookup "sha384sums" d = some c4)
    (h5 : List.lookup "sha512sums" d = some c5) :
    validateCore d =
      ((if (Value.str nm).truthy then [] else [reqMsg "name"]) ++
       (if dv.truthy then [] else [reqMsg "description"]) ++
       (if vv.truthy then [] else [reqMsg "version"]) ++
       (if rv.truthy then [] else [reqMsg "release"]) ++
       (if lv.truthy then [] else [reqMsg "licenses"]) ++
       (if av.truthy then [] else [reqMsg "arch"]) ++
       (if !reFullNameMatch nm.data then ["package name must be alphanumeric"] else []) ++
       (if c1.truthy then (if c1.len ≠ sv.len then [csMsg "md5sums"] else []) else []) ++
       (if c2.truthy then (if c2.len ≠ sv.len then [csMsg "sha1sums"] else []) else []) ++
       (if c3.truthy then (if c3.len ≠ sv.len then [csMsg "sha256sums"] else []) else []) ++
       (if c4.truthy then (if c4.len ≠ sv.len then [csMsg "sha384sums"] else []) else []) ++
       (if c5.truthy then (if c5.len ≠ sv.len then [csMsg "sha512sums"] else []) else []) ++
       (if sv.truthy && !(c1.truthy || c2.truthy || c3.truthy || c4.truthy || c5.truthy)
        then ["sources exist without checksums"] else []),
       (if reFullNameMatch nm.data && !reLowerStartMatch nm.data
        then ["package name should be in lower case"] else []) ++
       (if dv.truthy && dv.len > 80
        then ["description should not exceed 80 characters"] else []),
       none) := by
  by_cases e1 : c1.truthy <;> by_cases e2 : c2.truthy <;> by_cases e3 : c3.truthy <;>
    by_cases e4 : c4.truthy <;> by_cases e5 : c5.truthy <;>
    simp [validateCore, requiredFields, checksumFields, requiredErrorsLoop, checksumLoop,
      hn, hd, hv, hr, hl, ha, hs, h1, h2, h3, h4, h5, e1, e2, e3, e4, e5,
      List.append_assoc]

theorem count_ite_singleton_not (a x : String) (b : Bool) :
    List.count a (if b then [] else [x]) = if b = false ∧ a = x then 1 else 0 := by
  cases b <;> by_cases h : a = x <;>
    simp [h, List.count_cons, List.count_nil]

theorem count_ite_nested (a x : String) (b : Bool) (p : Prop) [Decidable p] :
    List.count a (if b then (if p then [x] else []) else []) =
      if b = true ∧ p ∧ a = x then 1 else 0 := by
  cases b <;> by_cases hp : p <;> by_cases h : a = x <;>
    simp [hp, h, List.count_cons, List.count_nil]

/-- Running `validate` on a freshly constructed package whose core raises nothing:
the findings become the instance's lists, `_validated` is set, and `_is_valid` is set
exactly when the error list is empty. -/
theorem validate_fresh (d : Data) (E W : List String)
    (h : validateCore d = (E, W, none)) :
    (freshPackage d).validate =
      ({ _data := d, _validated := true, _is_valid := E.isEmpty,
         _errors := E, _warnings := W }, none) := by
  cases E <;> simp [Package.validate, freshPackage, h, Package.has_errors]

/-! ## Concrete descriptors used as witnesses and counterexamples -/

/-- A descriptor with every key `validate` reads, all required fields truthy, a valid
lower-case name, and no sources. -/
def dGood : Data :=
  [("name", .str "foo"), ("description", .str "a package"), ("version", .str "1"),
   ("release", .str "1"), ("licenses", .list ["GPL"]), ("arch", .list ["i686"]),
   ("source", .list []), ("md5sums", .list []), ("sha1sums", .list []),
   ("sha256sums", .list []), ("sha384sums", .list []), ("sha512sums", .list [])]

/-- `dGood` with the `version` field overridden by the empty string. -/
def dNoVersion : Data := ("version", Value.str "") :: dGood

/-! ## Claim theorems -/

/-- C1: for every descriptor that binds all the keys `validate` reads, with a
string-valued `name`, and in which one or more of the six required fields is bound to
an empty/falsy value, `validate` raises nothing and appends exactly one
`<field> field is required` error per falsy required field (and none for a truthy
one), and the subsequent `is_valid` query returns `false`. -/
theorem C1_missing_required_fields (d : Data) (nm : String)
    (dv vv rv lv av sv c1 c2 c3 c4 c5 : Value)
    (hn : List.lookup "name" d = some (.str nm))
    (hd : List.lookup "description" d = some dv)
    (hv : List.lookup "version" d = some vv)
    (hr : List.lookup "release" d = some rv)
    (hl : List.lookup "licenses" d = some lv)
    (ha : List.lookup "arch" d = some av)
    (hs : List.lookup "source" d = some sv)
    (h1 : List.lookup "md5sums" d = some c1)
    (h2 : List.lookup "sha1sums" d = some c2)
    (h3 : List.lookup "sha256sums" d = some c3)
    (h4 : List.lookup "sha384sums" d = some c4)
    (h5 : List.lookup "sha512sums" d = some c5)
    (hmiss : ∃ f ∈ requiredFields, ∃ v, List.lookup f d = some v ∧ v.truthy = false) :
    ((freshPackage d).validate).2 = none ∧
    ((freshPackage d).validate).1._errors.count (reqMsg "name") =
      (if (Value.str nm).truthy then 0 else 1) ∧
    ((freshPackage d).validate).1._errors.count (reqMsg "description") =
      (if dv.truthy then 0 else 1) ∧
    ((freshPackage d).validate).1._errors.count (reqMsg "version") =
      (if vv.truthy then 0 else 1) ∧
    ((freshPackage d).validate).1._errors.count (reqMsg "release") =
      (if rv.truthy then 0 else 1) ∧
    ((freshPackage d).validate).1._errors.count (reqMsg "licenses") =
      (if lv.truthy then 0 else 1) ∧
    ((freshPackage d).validate).1._errors.count (reqMsg "arch") =
      (if av.truthy then 0 else 1) ∧
    ((freshPackage d).validate).1.is_valid.2 = Except.ok false := by
  have hc := validateCore_char d nm dv vv rv lv av sv c1 c2 c3 c4 c5
    hn hd hv hr hl ha hs h1 h2 h3 h4 h5
  have hres := validate_fresh d _ _ hc
  refine ⟨by rw [hres], ?_, ?_, ?_, ?_, ?_, ?_, ?_⟩
  · rw [hres]
    cases hb : (Value.str nm).truthy <;>
      simp +decide [hb, List.count_append, count_ite_split, count_single,
        List.count_nil]
  · rw [hres]
    cases hb : dv.truthy <;>
      simp +decide [hb, List.count_append, count_ite_split, count_single,
        List.count_nil]
  · rw [hres]
    cases hb : vv.truthy <;>
      simp +decide [hb, List.count_append, count_ite_split, count_single,
        List.count_nil]
  · rw [hres]
    cases hb : rv.truthy <;>
      simp +decide [hb, List.count_append, count_ite_split, count_single,
        List.count_nil]
  · rw [hres]
    cases hb : lv.truthy <;>
      simp +decide [hb, List.count_append, count_ite_split, count_single,
        List.count_nil]
  · rw [hres]
    cases hb : av.truthy <;>
      simp +decide [hb, List.count_append, count_ite_split, count_single,
        List.count_nil]
  · rw [hres]
    obtain ⟨f, hf, v, hv', hfalse⟩ := hmiss
    fin_cases hf
    · rw [hn] at hv'
      cases hv'
      simp [Package.is_valid, hfalse]
    · rw [hd] at hv'
      cases hv'
      simp [Package.is_valid, hfalse]
    · rw [hv] at hv'
      cases hv'
      simp [Package.is_valid, hfalse]
    · rw [hr] at hv'
      cases hv'
      simp [Package.is_valid, hfalse]
    · rw [hl] at hv'
      cases hv'
      simp [Package.is_valid, hfalse]
    · rw [ha] at hv'
      cases hv'
      simp [Package.is_valid, hfalse]

/-- C1 witness: `C1_missing_required_fields` applied to `dNoVersion`, whose `version`
field is the empty string. -/
theorem C1_missing_required_fields_witness :
    ((freshPackage dNoVersion).validate).2 = none ∧
    ((freshPackage dNoVersion).validate).1._errors.count (reqMsg "name") =
      (if (Value.str "foo").truthy then 0 else 1) ∧
    ((freshPackage dNoVersion).validate).1._errors.count (reqMsg "description") =
      (if (Value.str "a package").truthy then 0 else 1) ∧
    ((freshPackage dNoVersion).validate).1._errors.count (reqMsg "version") =
      (if (Value.str "").truthy then 0 else 1) ∧
    ((freshPackage dNoVersion).validate).1._errors.count (reqMsg "release") =
      (if (Value.str "1").truthy then 0 else 1) ∧
    ((freshPackage dNoVersion).validate).1._errors.count (reqMsg "licenses") =
      (if (Value.list ["GPL"]).truthy then 0 else 1) ∧
    ((freshPackage dNoVersion).validate).1._errors.count (reqMsg "arch") =
      (if (Value.list ["i686"]).truthy then 0 else 1) ∧
    ((freshPackage dNoVersion).validate).1.is_valid.2 = Except.ok false :=
  C1_missing_required_fields dNoVersion "foo" (.str "a package") (.str "") (.str "1")
    (.list ["GPL"]) (.list ["i686"]) (.list []) (.list []) (.list []) (.list [])
    (.list []) (.list []) rfl rfl rfl rfl rfl rfl rfl rfl rfl rfl rfl rfl
    ⟨"version", by decide, .str "", rfl, rfl⟩

/-- `dGood` loaded, validated once (no findings, flag set), then its `name` overwritten
with the empty string and `validate` explicitly re-invoked: the second pass appends two
errors, but `_is_valid` was already set and is never reset. -/
def pkgRevalidated : Package :=
  ((((freshPackage dGood).validate).1.setitem "name" (Value.str "")).validate).1

/-- C2 counterexample: a descriptor instance on which validation has run (twice, with a
mutation in between) whose `is_valid` query answers `true` while its error list is
non-empty — the claimed equivalence fails because the cached flag is never reset. -/
theorem C2_counterexample :
    (pkgRevalidated.is_valid).2 = Except.ok true ∧ pkgRevalidated._errors ≠ [] :=
  ⟨rfl, by decide⟩

/-- C2 amended: on a descriptor validated exactly once (a fresh instance that binds
every key `validate` reads, with a string-valued name), the `is_valid` query answers
`true` exactly when the error list is empty; the warnings list plays no part in the
verdict.  (As stated the claim fails once `validate` is explicitly re-invoked after a
mutation, because the `_is_valid` flag is never reset from `true`.) -/
theorem C2_valid_iff_errors_empty (d : Data) (nm : String)
    (dv vv rv lv av sv c1 c2 c3 c4 c5 : Value)
    (hn : List.lookup "name" d = some (.str nm))
    (hd : List.lookup "description" d = some dv)
    (hv : List.lookup "version" d = some vv)
    (hr : List.lookup "release" d = some rv)
    (hl : List.lookup "licenses" d = some lv)
    (ha : List.lookup "arch" d = some av)
    (hs : List.lookup "source" d = some sv)
    (h1 : List.lookup "md5sums" d = some c1)
    (h2 : List.lookup "sha1sums" d = some c2)
    (h3 : List.lookup "sha256sums" d = some c3)
    (h4 : List.lookup "sha384sums" d = some c4)
    (h5 : List.lookup "sha512sums" d = some c5) :
    ((freshPackage d).validate).2 = none ∧
    (((freshPackage d).validate).1.is_valid).2 =
      Except.ok (((freshPackage d).validate).1._errors.isEmpty) := by
  have hc := validateCore_char d nm dv vv rv lv av sv c1 c2 c3 c4 c5
    hn hd hv hr hl ha hs h1 h2 h3 h4 h5
  have hres := validate_fresh d _ _ hc
  rw [hres]
  exact ⟨rfl, by simp [Package.is_valid]⟩

/-- C2 witness: `C2_valid_iff_errors_empty` applied to `dGood`. -/
theorem C2_valid_iff_errors_empty_witness :
    ((freshPackage dGood).validate).2 = none ∧
    (((freshPackage dGood).validate).1.is_valid).2 =
      Except.ok (((freshPackage dGood).validate).1._errors.isEmpty) :=
  C2_valid_iff_errors_empty dGood "foo" (.str "a package") (.str "1") (.str "1")
    (.list ["GPL"]) (.list ["i686"]) (.list []) (.list []) (.list []) (.list [])
    (.list []) (.list []) rfl rfl rfl rfl rfl rfl rfl rfl rfl rfl rfl rfl

/-- `dNoVersion` validated twice in a row by explicit `validate` calls. -/
def pkgTwiceValidated : Package :=
  (((freshPackage dNoVersion).validate).1.validate).1

/-- C3 counterexample: a second explicit `validate` call is not memoized — it re-runs
every rule and appends the `version field is required` finding a second time. -/
theorem C3_counterexample :
    pkgTwiceValidated._errors.count (reqMsg "version") = 2 := by
  decide

/-- `dGood` loaded and validated once. -/
def pkgValidatedGood : Package :=
  ((freshPackage dGood).validate).1

/-- C3 amended: only the `is_valid` query is memoized: once `_validated` is set, the
query — including after a field mutation via item assignment — returns the cached
verdict and leaves the instance unchanged, without re-running validation or appending
findings.  An explicit `validate` call, by contrast, always re-runs the rules and
re-appends its findings (see the counterexample). -/
theorem C3_is_valid_memoized (p : Package) (k : String) (v : Value)
    (hval : p._validated = true) :
    p.is_valid = (p, Except.ok p._is_valid) ∧
    (p.setitem k v).is_valid = (p.setitem k v, Except.ok p._is_valid) := by
  constructor
  · simp [Package.is_valid, hval]
  · simp [Package.is_valid, Package.setitem, hval]

/-- C3 witness: `C3_is_valid_memoized` applied to `dGood` validated once, mutating
`name` between the two queries. -/
theorem C3_is_valid_memoized_witness :
    pkgValidatedGood._validated = true ∧
    (pkgValidatedGood.is_valid = (pkgValidatedGood, Except.ok pkgValidatedGood._is_valid) ∧
     (pkgValidatedGood.setitem "name" (Value.str "x")).is_valid =
       (pkgValidatedGood.setitem "name" (Value.str "x"), Except.ok pkgValidatedGood._is_valid)) :=
  ⟨rfl, C3_is_valid_memoized pkgValidatedGood "name" (Value.str "x") rfl⟩

/-- `dGood` with the name overridden by `"aB"`: passes the full anchored match, is not
all lower-case, yet starts with a character of the class `[a-z\d_-]`. -/
def dNameAB : Data := ("name", Value.str "aB") :: dGood

/-- C4 counterexample: the name `"aB"` passes the `[A-Za-z0-9_-]+` full match and is
not all-lowercase, yet `validate` appends no lowercase warning (and no error): the
lower-case rule `re.match("[a-z\d_-]+", name)` only inspects a prefix, so any name
whose first character is lower-case escapes the warning. -/
theorem C4_counterexample :
    ((freshPackage dNameAB).validate).1._errors = [] ∧
    ((freshPackage dNameAB).validate).1._warnings = [] := by
  decide

/-- `dGood` with the name overridden by `"My_Package-1"`. -/
def dNameMixed : Data := ("name", Value.str "My_Package-1") :: dGood

/-- C4 amended: for a descriptor binding all read keys with a string-valued name,
`validate` appends exactly one `package name must be alphanumeric` error when the name
fails the anchored `^[\w\d_-]+$` match (which, per Python `$` semantics, also accepts
one trailing newline) and no lowercase warning in that case; when the name passes that
match, it appends no such error and exactly one lowercase warning if and only if the
first character of the name is outside `[a-z0-9_-]` — the lower-case check is an
unanchored prefix match, not a whole-string check. -/
theorem C4_name_rules (d : Data) (nm : String)
    (dv vv rv lv av sv c1 c2 c3 c4 c5 : Value)
    (hn : List.lookup "name" d = some (.str nm))
    (hd : List.lookup "description" d = some dv)
    (hv : List.lookup "version" d = some vv)
    (hr : List.lookup "release" d = some rv)
    (hl : List.lookup "licenses" d = some lv)
    (ha : List.lookup "arch" d = some av)
    (hs : List.lookup "source" d = some sv)
    (h1 : List.lookup "md5sums" d = some c1)
    (h2 : List.lookup "sha1sums" d = some c2)
    (h3 : List.lookup "sha256sums" d = some c3)
    (h4 : List.lookup "sha384sums" d = some c4)
    (h5 : List.lookup "sha512sums" d = some c5) :
    ((freshPackage d).validate).2 = none ∧
    ((freshPackage d).validate).1._errors.count "package name must be alphanumeric" =
      (if reFullNameMatch nm.data then 0 else 1) ∧
    ((freshPackage d).validate).1._warnings.count "package name should be in lower case" =
      (if reFullNameMatch nm.data ∧ reLowerStartMatch nm.data = false then 1 else 0) := by
  have hc := validateCore_char d nm dv vv rv lv av sv c1 c2 c3 c4 c5
    hn hd hv hr hl ha hs h1 h2 h3 h4 h5
  have hres := validate_fresh d _ _ hc
  refine ⟨by rw [hres], ?_, ?_⟩
  · rw [hres]
    cases hb : reFullNameMatch nm.data <;>
      simp +decide [hb, List.count_append, count_ite_split, count_single,
        List.count_nil]
  · rw [hres]
    cases hb : reFullNameMatch nm.data <;> cases hb' : reLowerStartMatch nm.data <;>
      simp +decide [hb, hb', List.count_append, count_ite_split, count_single,
        List.count_nil]

/-- C4 witness: `C4_name_rules` applied to the name `"My_Package-1"`, which passes the
anchored match and starts with an upper-case character. -/
theorem C4_name_rules_witness :
    ((freshPackage dNameMixed).validate).2 = none ∧
    ((freshPackage dNameMixed).validate).1._errors.count "package name must be alphanumeric" =
      (if reFullNameMatch "My_Package-1".data then 0 else 1) ∧
    ((freshPackage dNameMixed).validate).1._warnings.count "package name should be in lower case" =
      (if reFullNameMatch "My_Package-1".data ∧ reLowerStartMatch "My_Package-1".data = false
       then 1 else 0) :=
  C4_name_rules dNameMixed "My_Package-1" (.str "a package") (.str "1") (.str "1")
    (.list ["GPL"]) (.list ["i686"]) (.list []) (.list []) (.list []) (.list [])
    (.list []) (.list []) rfl rfl rfl rfl rfl rfl rfl rfl rfl rfl rfl rfl

/-- C5: for a descriptor binding all read keys with a string-valued name, `validate`
appends exactly one `amount of <field> and sources does not match` error per checksum
field that is present with a non-empty value whose length differs from the length of
`source`, and exactly one `sources exist without checksums` error exactly when `source`
is non-empty and none of the five checksum fields has a non-empty value. -/
theorem C5_checksum_rules (d : Data) (nm : String)
    (dv vv rv lv av sv c1 c2 c3 c4 c5 : Value)
    (hn : List.lookup "name" d = some (.str nm))
    (hd : List.lookup "description" d = some dv)
    (hv : List.lookup "version" d = some vv)
    (hr : List.lookup "release" d = some rv)
    (hl : List.lookup "licenses" d = some lv)
    (ha : List.lookup "arch" d = some av)
    (hs : List.lookup "source" d = some sv)
    (h1 : List.lookup "md5sums" d = some c1)
    (h2 : List.lookup "sha1sums" d = some c2)
    (h3 : List.lookup "sha256sums" d = some c3)
    (h4 : List.lookup "sha384sums" d = some c4)
    (h5 : List.lookup "sha512sums" d = some c5) :
    ((freshPackage d).validate).2 = none ∧
    ((freshPackage d).validate).1._errors.count (csMsg "md5sums") =
      (if c1.truthy ∧ c1.len ≠ sv.len then 1 else 0) ∧
    ((freshPackage d).validate).1._errors.count (csMsg "sha1sums") =
      (if c2.truthy ∧ c2.len ≠ sv.len then 1 else 0) ∧
    ((freshPackage d).validate).1._errors.count (csMsg "sha256sums") =
      (if c3.truthy ∧ c3.len ≠ sv.len then 1 else 0) ∧
    ((freshPackage d).validate).1._errors.count (csMsg "sha384sums") =
      (if c4.truthy ∧ c4.len ≠ sv.len then 1 else 0) ∧
    ((freshPackage d).validate).1._errors.count (csMsg "sha512sums") =
      (if c5.truthy ∧ c5.len ≠ sv.len then 1 else 0) ∧
    ((freshPackage d).validate).1._errors.count "sources exist without checksums" =
      (if sv.truthy ∧ ¬(c1.truthy ∨ c2.truthy ∨ c3.truthy ∨ c4.truthy ∨ c5.truthy)
       then 1 else 0) := by
  have hc := validateCore_char d nm dv vv rv lv av sv c1 c2 c3 c4 c5
    hn hd hv hr hl ha hs h1 h2 h3 h4 h5
  have hres := validate_fresh d _ _ hc
  refine ⟨by rw [hres], ?_, ?_, ?_, ?_, ?_, ?_⟩
  · rw [hres]
    cases hb : c1.truthy <;> by_cases hlen : c1.len = sv.len <;>
      simp +decide [hb, hlen, List.count_append, count_ite_split, count_single,
        List.count_nil]
  · rw [hres]
    cases hb : c2.truthy <;> by_cases hlen : c2.len = sv.len <;>
      simp +decide [hb, hlen, List.count_append, count_ite_split, count_single,
        List.count_nil]
  · rw [hres]
    cases hb : c3.truthy <;> by_cases hlen : c3.len = sv.len <;>
      simp +decide [hb, hlen, List.count_append, count_ite_split, count_single,
        List.count_nil]
  · rw [hres]
    cases hb : c4.truthy <;> by_cases hlen : c4.len = sv.len <;>
      simp +decide [hb, hlen, List.count_append, count_ite_split, count_single,
        List.count_nil]
  · rw [hres]
    cases hb : c5.truthy <;> by_cases hlen : c5.len = sv.len <;>
      simp +decide [hb, hlen, List.count_append, count_ite_split, count_single,
        List.count_nil]
  · rw [hres]
    cases hb : sv.truthy <;>
      by_cases hall : (c1.truthy || c2.truthy || c3.truthy || c4.truthy || c5.truthy) = true <;>
      simp_all +decide [List.count_append, count_ite_split, count_single,
        List.count_nil, and_assoc]

/-- `dGood` with three sources and a two-element `md5sums`. -/
def dMismatch : Data :=
  ("md5sums", Value.list ["x", "y"]) :: ("source", Value.list ["a", "b", "c"]) :: dGood

/-- C5 witness: `C5_checksum_rules` applied to a descriptor with
`source = [a, b, c]` and `md5sums = [x, y]`. -/
theorem C5_checksum_rules_witness :
    ((freshPackage dMismatch).validate).2 = none ∧
    ((freshPackage dMismatch).validate).1._errors.count (csMsg "md5sums") =
      (if (Value.list ["x", "y"]).truthy ∧
          (Value.list ["x", "y"]).len ≠ (Value.list ["a", "b", "c"]).len then 1 else 0) ∧
    ((freshPackage dMismatch).validate).1._errors.count (csMsg "sha1sums") =
      (if (Value.list []).truthy ∧
          (Value.list []).len ≠ (Value.list ["a", "b", "c"]).len then 1 else 0) ∧
    ((freshPackage dMismatch).validate).1._errors.count (csMsg "sha256sums") =
      (if (Value.list []).truthy ∧
          (Value.list []).len ≠ (Value.list ["a", "b", "c"]).len then 1 else 0) ∧
    ((freshPackage dMismatch).validate).1._errors.count (csMsg "sha384sums") =
      (if (Value.list []).truthy ∧
          (Value.list []).len ≠ (Value.list ["a", "b", "c"]).len then 1 else 0) ∧
    ((freshPackage dMismatch).validate).1._errors.count (csMsg "sha512sums") =
      (if (Value.list []).truthy ∧
          (Value.list []).len ≠ (Value.list ["a", "b", "c"]).len then 1 else 0) ∧
    ((freshPackage dMismatch).validate).1._errors.count "sources exist without checksums" =
      (if (Value.list ["a", "b", "c"]).truthy ∧
          ¬((Value.list ["x", "y"]).truthy ∨ (Value.list []).truthy ∨
            (Value.list []).truthy ∨ (Value.list []).truthy ∨ (Value.list []).truthy)
       then 1 else 0) :=
  C5_checksum_rules dMismatch "foo" (.str "a package") (.str "1") (.str "1")
    (.list ["GPL"]) (.list ["i686"]) (.list ["a", "b", "c"]) (.list ["x", "y"])
    (.list []) (.list []) (.list []) (.list [])
    rfl rfl rfl rfl rfl rfl rfl rfl rfl rfl rfl rfl

/-- A mutation of a `Package` instance through its public operations: an explicit
`validate` call, an `is_valid` query, or an item assignment. -/
inductive PkgOp where
  | validateOp
  | isValidOp
  | setItemOp (k : String) (v : Value)

/-- The state left behind by one public operation (the raised exception, if any, is
discarded: the flags are whatever the partially mutated instance holds). -/
def PkgOp.apply : PkgOp → Package → Package
  | .validateOp, p => (p.validate).1
  | .isValidOp, p => (p.is_valid).1
  | .setItemOp k v, p => p.setitem k v

/-- C10: the cached `_is_valid` flag is monotone: once some validation pass has set it
to `true`, no public operation — item assignment, a further `is_valid` query, or an
explicit re-`validate` that appends fresh errors — ever resets it to `false`:
`validate` only ever assigns `true`, and only the constructor writes `false`. -/
theorem C10_is_valid_monotone (op : PkgOp) (p : Package)
    (h : p._is_valid = true) :
    (op.apply p)._is_valid = true := by
  cases op with
  | validateOp =>
    simp only [PkgOp.apply, Package.validate]
    cases hcv : (validateCore p._data).2.2 with
    | some e => simpa using h
    | none =>
      by_cases hb : (({ p with
          _errors := p._errors ++ (validateCore p._data).1,
          _warnings := p._warnings ++ (validateCore p._data).2.1,
          _validated := true } : Package).has_errors) = true <;>
        simp [hb, h]
  | isValidOp =>
    simp only [PkgOp.apply, Package.is_valid]
    by_cases hb : p._validated = true
    · simpa [hb] using h
    · simp only [hb]
      cases hr : (p.validate).2 with
      | some e =>
        have : ((p.validate).1)._is_valid = true := by
          simp only [Package.validate] at hr ⊢
          cases hcv : (validateCore p._data).2.2 with
          | some e' => simpa using h
          | none => simp [hcv] at hr
        simpa [hr] using this
      | none =>
        have : ((p.validate).1)._is_valid = true := by
          simp only [Package.validate]
          cases hcv : (validateCore p._data).2.2 with
          | some e' => simpa using h
          | none =>
            by_cases hb' : (({ p with
                _errors := p._errors ++ (validateCore p._data).1,
                _warnings := p._warnings ++ (validateCore p._data).2.1,
                _validated := true } : Package).has_errors) = true <;>
              simp [hb', h]
        simpa [hr] using this
  | setItemOp k v =>
    simpa [PkgOp.apply, Package.setitem] using h

/-- C10 witness: a validated-valid instance mutated and explicitly re-validated so that
new errors are appended keeps `_is_valid = true`. -/
theorem C10_is_valid_monotone_witness :
    (((freshPackage dGood).validate).1.setitem "name" (Value.str ""))._is_valid = true ∧
    (PkgOp.apply .validateOp
      (((freshPackage dGood).validate).1.setitem "name" (Value.str "")))._is_valid = true :=
  ⟨by decide,
   C10_is_valid_monotone .validateOp
     (((freshPackage dGood).validate).1.setitem "name" (Value.str "")) (by decide)⟩

/-- An archive none of whose member names contains `"PKGBUILD"` has no member to
extract. -/
theorem findMember_none {α : Type} (ms : List (String × α))
    (h : ∀ m ∈ ms, hasSubList "PKGBUILD".data m.1.data = false) :
    findMember ms = none := by
  induction ms with
  | nil => rfl
  | cons hd tl ih =>
    obtain ⟨n, c⟩ := hd
    have h1 := h (n, c) (List.mem_cons_self _ _)
    simp only at h1
    simp only [findMember, h1, Bool.false_eq_true, if_false]
    exact ih (fun m hm => h m (List.mem_cons_of_mem _ hm))

/-- C6: under any evaluator `E`, loading a descriptor as a plain file and loading an
archive whose first `PKGBUILD`-named member carries the same content produce identical
outcomes (in particular identical field mappings on success); and loading an archive
none of whose member names contains `"PKGBUILD"` as a substring raises
`InvalidPackage` instead of returning a descriptor. -/
theorem C6_plain_vs_tar {α : Type} (E : α → List (Option Data))
    (members ms : List (String × α)) (n : String) (c : α)
    (hfind : findMember members = some (n, c))
    (hnone : ∀ m ∈ ms, hasSubList "PKGBUILD".data m.1.data = false) :
    (load (.tar members) E).result = (load (.plain c) E).result ∧
    (load (.tar ms) E).result =
      .error (.invalidPackage "tar file does not contain a PKGBUILD") := by
  constructor
  · cases hr : (execLines [] (E c)).2 <;> simp [load, hfind, hr]
  · simp [load, findMember_none ms hnone]

/-- C6 witness: a one-member archive carrying content `5` against the plain file `5`,
and an archive whose only member is named `README`. -/
theorem C6_plain_vs_tar_witness :
    (load (.tar [("a/PKGBUILD", 5)]) (fun n => [some [("name", Value.str (toString n))]])).result =
      (load (.plain 5) (fun n => [some [("name", Value.str (toString n))]])).result ∧
    (load (.tar [("README", 7)]) (fun n => [some [("name", Value.str (toString n))]])).result =
      .error (.invalidPackage "tar file does not contain a PKGBUILD") :=
  C6_plain_vs_tar (fun n => [some [("name", Value.str (toString n))]])
    [("a/PKGBUILD", 5)] [("README", 7)] "a/PKGBUILD" 5 rfl (by decide)

/-- C7: the code deletes the extracted temporary file only on the success path.  On the
failing input below — an archive with a `PKGBUILD` member whose evaluator output
contains a malformed line, so that `exec` raises out of the read loop — `load` errors
out with the temporary file created but never removed: there is no `try/finally` around
the parse, so the claimed guaranteed cleanup on error exits does not happen. -/
theorem C7_temp_file_leak :
    (load (α := Unit) (.tar [("PKGBUILD", ())]) (fun _ => [none])).result =
      .error .execError ∧
    (load (α := Unit) (.tar [("PKGBUILD", ())]) (fun _ => [none])).tempCreated = true ∧
    (load (α := Unit) (.tar [("PKGBUILD", ())]) (fun _ => [none])).tempDeleted = false :=
  ⟨rfl, rfl, rfl⟩

/-- C8: the subprocess discipline the spec demands (spawn, read all output, then wait)
is not what the code does: `process.wait()` is called immediately after `Popen`, and
the standard output is read only afterwards.  In every invocation that spawns the
evaluator the event order is spawn, wait, read. -/
theorem C8_wait_before_read {α : Type} (E : α → List (Option Data)) (c : α)
    (members : List (String × α)) (n : String) (m : α)
    (hfind : findMember members = some (n, m)) :
    (load (.plain c) E).events = [.spawn, .wait, .readOutput] ∧
    ((load (.tar members) E).events = [.extractTemp, .spawn, .wait, .readOutput] ∨
     (load (.tar members) E).events =
       [.extractTemp, .spawn, .wait, .readOutput, .removeTemp]) := by
  constructor
  · rfl
  · cases hr : (execLines [] (E m)).2 <;> simp [load, hfind, hr]

/-- C8 witness: `C8_wait_before_read` at a concrete archive and evaluator. -/
theorem C8_wait_before_read_witness :
    (load (.plain 5) (fun n => [some [("name", Value.str (toString n))]])).events =
      [.spawn, .wait, .readOutput] ∧
    ((load (.tar [("a/PKGBUILD", 5)]) (fun n => [some [("name", Value.str (toString n))]])).events =
       [.extractTemp, .spawn, .wait, .readOutput] ∨
     (load (.tar [("a/PKGBUILD", 5)]) (fun n => [some [("name", Value.str (toString n))]])).events =
       [.extractTemp, .spawn, .wait, .readOutput, .removeTemp]) :=
  C8_wait_before_read (fun n => [some [("name", Value.str (toString n))]]) 5
    [("a/PKGBUILD", 5)] "a/PKGBUILD" 5 rfl

/-! ## Lemmas about the raising behaviour of the validation loops -/

theorem mem_ite_or {α : Type} (m : α) (p : Prop) [Decidable p] (l₁ l₂ : List α)
    (h : m ∈ (if p then l₁ else l₂)) : m ∈ l₁ ∨ m ∈ l₂ := by
  by_cases hp : p
  · rw [if_pos hp] at h
    exact Or.inl h
  · rw [if_neg hp] at h
    exact Or.inr h

theorem req_none_present (d : Data) (fs : List String)
    (h : (requiredErrorsLoop d fs).2 = none) :
    ∀ f ∈ fs, (List.lookup f d).isSome := by
  induction fs with
  | nil =>
    intro f hf
    cases hf
  | cons g gs ih =>
    intro f hf
    cases hg : List.lookup g d with
    | none =>
      simp only [requiredErrorsLoop, hg] at h
      exact Option.noConfusion h
    | some v =>
      simp only [requiredErrorsLoop, hg] at h
      rcases List.mem_cons.mp hf with rfl | hf'
      · rw [hg]
        rfl
      · exact ih h f hf'

theorem req_raise_absent (d : Data) (fs : List String) (e : PyErr)
    (h : (requiredErrorsLoop d fs).2 = some e) :
    ∃ k ∈ fs, List.lookup k d = none ∧ e = .keyError k := by
  induction fs with
  | nil =>
    simp [requiredErrorsLoop] at h
  | cons g gs ih =>
    cases hg : List.lookup g d with
    | none =>
      simp only [requiredErrorsLoop, hg, Option.some.injEq] at h
      exact ⟨g, List.mem_cons_self _ _, hg, h.symm⟩
    | some v =>
      simp only [requiredErrorsLoop, hg] at h
      obtain ⟨k, hk, hkabs, hke⟩ := ih h
      exact ⟨k, List.mem_cons_of_mem _ hk, hkabs, hke⟩

theorem req_msgs (d : Data) (fs : List String) :
    ∀ m ∈ (requiredErrorsLoop d fs).1,
      ∃ f ∈ fs, (List.lookup f d).isSome ∧ m = reqMsg f := by
  induction fs with
  | nil =>
    intro m hm
    simp [requiredErrorsLoop] at hm
  | cons g gs ih =>
    intro m hm
    cases hg : List.lookup g d with
    | none =>
      simp only [requiredErrorsLoop, hg] at hm
      cases hm
    | some v =>
      simp only [requiredErrorsLoop, hg] at hm
      rcases List.mem_append.mp hm with hm' | hm'
      · rcases mem_ite_or m _ _ _ hm' with hm'' | hm''
        · cases hm''
        · rcases List.mem_singleton.mp hm'' with rfl
          exact ⟨g, List.mem_cons_self _ _, by rw [hg]; rfl, rfl⟩
      · obtain ⟨f, hf, hfs, hfm⟩ := ih m hm'
        exact ⟨f, List.mem_cons_of_mem _ hf, hfs, hfm⟩

theorem cs_none_present (d : Data) (cs : List String) :
    ∀ b : Bool, (checksumLoop d cs b).2.2 = none →
      ∀ c ∈ cs, (List.lookup c d).isSome := by
  induction cs with
  | nil =>
    intro b _ c hc
    cases hc
  | cons g gs ih =>
    intro b h c hc
    cases hg : List.lookup g d with
    | none =>
      simp only [checksumLoop, hg] at h
      exact Option.noConfusion h
    | some v =>
      simp only [checksumLoop, hg] at h
      rcases List.mem_cons.mp hc with rfl | hc'
      · rw [hg]
        rfl
      · by_cases ht : v.truthy = true
        · rw [if_pos ht] at h
          cases hsrc : List.lookup "source" d with
          | none =>
            rw [hsrc] at h
            simp at h
          | some sv =>
            rw [hsrc] at h
            simp only at h
            exact ih true h c hc'
        · rw [if_neg ht] at h
          exact ih b h c hc'

theorem cs_raise_absent (d : Data) (cs : List String) :
    ∀ (b : Bool) (e : PyErr), (checksumLoop d cs b).2.2 = some e →
      ∃ k, List.lookup k d = none ∧ e = .keyError k ∧ (k ∈ cs ∨ k = "source") := by
  induction cs with
  | nil =>
    intro b e h
    simp [checksumLoop] at h
  | cons g gs ih =>
    intro b e h
    cases hg : List.lookup g d with
    | none =>
      simp only [checksumLoop, hg, Option.some.injEq] at h
      exact ⟨g, hg, h.symm, Or.inl (List.mem_cons_self _ _)⟩
    | some v =>
      simp only [checksumLoop, hg] at h
      by_cases ht : v.truthy = true
      · rw [if_pos ht] at h
        cases hsrc : List.lookup "source" d with
        | none =>
          rw [hsrc] at h
          simp only [Option.some.injEq] at h
          exact ⟨"source", hsrc, h.symm, Or.inr rfl⟩
        | some sv =>
          rw [hsrc] at h
          simp only at h
          obtain ⟨k, hkabs, hke, hkm⟩ := ih true e h
          exact ⟨k, hkabs, hke, hkm.imp_left (List.mem_cons_of_mem _)⟩
      · rw [if_neg ht] at h
        obtain ⟨k, hkabs, hke, hkm⟩ := ih b e h
        exact ⟨k, hkabs, hke, hkm.imp_left (List.mem_cons_of_mem _)⟩

theorem cs_msgs (d : Data) (cs : List String) :
    ∀ (b : Bool), ∀ m ∈ (checksumLoop d cs b).1, ∃ c ∈ cs, m = csMsg c := by
  induction cs with
  | nil =>
    intro b m hm
    simp [checksumLoop] at hm
  | cons g gs ih =>
    intro b m hm
    cases hg : List.lookup g d with
    | none =>
      simp only [checksumLoop, hg] at hm
      cases hm
    | some v =>
      simp only [checksumLoop, hg] at hm
      by_cases ht : v.truthy = true
      · rw [if_pos ht] at hm
        cases hsrc : List.lookup "source" d with
        | none =>
          rw [hsrc] at hm
          simp at hm
        | some sv =>
          rw [hsrc] at hm
          simp only at hm
          rcases List.mem_append.mp hm with hm' | hm'
          · rcases mem_ite_or m _ _ _ hm' with hm'' | hm''
            · rcases List.mem_singleton.mp hm'' with rfl
              exact ⟨g, List.mem_cons_self _ _, rfl⟩
            · cases hm''
          · obtain ⟨c, hc, hcm⟩ := ih true m hm'
            exact ⟨c, List.mem_cons_of_mem _ hc, hcm⟩
      · rw [if_neg ht] at hm
        obtain ⟨c, hc, hcm⟩ := ih b m hm
        exact ⟨c, List.mem_cons_of_mem _ hc, hcm⟩

theorem reqMsg_inj_on :
    ∀ f ∈ accessedFields, ∀ g ∈ accessedFields, reqMsg f = reqMsg g → f = g := by
  decide

theorem reqMsg_ne_alnum :
    ∀ k ∈ accessedFields, reqMsg k ≠ "package name must be alphanumeric" := by
  decide

theorem reqMsg_ne_csMsg :
    ∀ k ∈ accessedFields, ∀ c ∈ checksumFields, reqMsg k ≠ csMsg c := by
  decide

theorem required_subset_accessed : ∀ k ∈ requiredFields, k ∈ accessedFields := by
  decide

theorem checksums_subset_accessed : ∀ k ∈ checksumFields, k ∈ accessedFields := by
  decide

theorem mem_accessed_cases :
    ∀ k ∈ accessedFields, k ∈ requiredFields ∨ k = "source" ∨ k ∈ checksumFields := by
  decide

/-- Lifting a raising `validateCore` run to `Package.validate` on a fresh instance:
the exception propagates and the partially appended errors are kept. -/
theorem validate_fresh_raise (d : Data) (e : PyErr)
    (h : (validateCore d).2.2 = some e) :
    ((freshPackage d).validate).2 = some e ∧
    ((freshPackage d).validate).1._errors = (validateCore d).1 := by
  constructor <;> simp [Package.validate, freshPackage, h]

/-- When some key that `validate` reads is absent from the mapping (and `name`, when
bound, is bound to a string), `validateCore` raises a `KeyError` for an absent key and
records no `field is required` error for that key. -/
theorem validateCore_raises_absent (d : Data)
    (hname : ∀ v, List.lookup "name" d = some v → ∃ s, v = Value.str s)
    (hmiss : ∃ k ∈ accessedFields, List.lookup k d = none) :
    ∃ k, k ∈ accessedFields ∧ List.lookup k d = none ∧
      (validateCore d).2.2 = some (.keyError k) ∧
      reqMsg k ∉ (validateCore d).1 := by
  cases hreq : (requiredErrorsLoop d requiredFields).2 with
  | some e =>
    obtain ⟨k, hk, hkabs, rfl⟩ := req_raise_absent d requiredFields e hreq
    have hka := required_subset_accessed k hk
    refine ⟨k, hka, hkabs, ?_, ?_⟩
    · simp [validateCore, hreq]
    · simp only [validateCore, hreq]
      intro hmem
      obtain ⟨f, hf, hfsome, hfeq⟩ := req_msgs d requiredFields _ hmem
      have : k = f := reqMsg_inj_on k hka f (required_subset_accessed f hf) hfeq
      rw [← this, hkabs] at hfsome
      exact Bool.noConfusion hfsome
  | none =>
    have hreqpres := req_none_present d requiredFields hreq
    obtain ⟨vn, hvn⟩ := Option.isSome_iff_exists.mp (hreqpres "name" (by decide))
    obtain ⟨nm, rfl⟩ := hname vn hvn
    obtain ⟨dv, hdv⟩ := Option.isSome_iff_exists.mp (hreqpres "description" (by decide))
    have habs_req : ∀ k, List.lookup k d = none → k ∉ requiredFields := by
      intro k hk hmem
      have := hreqpres k hmem
      rw [hk] at this
      exact Bool.noConfusion this
    cases hcs : (checksumLoop d checksumFields false).2.2 with
    | some e =>
      obtain ⟨k, hkabs, rfl, hkm⟩ := cs_raise_absent d checksumFields false e hcs
      have hka : k ∈ accessedFields := by
        rcases hkm with hkm | rfl
        · exact checksums_subset_accessed k hkm
        · decide
      refine ⟨k, hka, hkabs, ?_, ?_⟩
      · simp [validateCore, hreq, hvn, hdv, hcs]
      · simp only [validateCore, hreq, hvn, hdv, hcs]
        intro hmem
        rcases List.mem_append.mp hmem with hmem' | hmem'
        · rcases List.mem_append.mp hmem' with hmem'' | hmem''
          · obtain ⟨f, hf, hfsome, hfeq⟩ := req_msgs d requiredFields _ hmem''
            have : k = f := reqMsg_inj_on k hka f (required_subset_accessed f hf) hfeq
            rw [← this, hkabs] at hfsome
            exact Bool.noConfusion hfsome
          · rcases mem_ite_or _ _ _ _ hmem'' with hx | hx
            · exact reqMsg_ne_alnum k hka (List.mem_singleton.mp hx)
            · cases hx
        · obtain ⟨c, hc, hceq⟩ := cs_msgs d checksumFields false _ hmem'
          exact reqMsg_ne_csMsg k hka c hc hceq
    | none =>
      have hcspres := cs_none_present d checksumFields false hcs
      cases hsrc : List.lookup "source" d with
      | some sv =>
        exfalso
        obtain ⟨k, hk, hkabs⟩ := hmiss
        rcases mem_accessed_cases k hk with hm | hm | hm
        · exact habs_req k hkabs hm
        · rw [hm, hsrc] at hkabs
          exact Option.noConfusion hkabs
        · have := hcspres k hm
          rw [hkabs] at this
          exact Bool.noConfusion this
      | none =>
        refine ⟨"source", by decide, hsrc, ?_, ?_⟩
        · simp [validateCore, hreq, hvn, hdv, hcs, hsrc]
        · simp only [validateCore, hreq, hvn, hdv, hcs, hsrc]
          intro hmem
          have hsa : ("source" : String) ∈ accessedFields := by decide
          rcases List.mem_append.mp hmem with hmem' | hmem'
          · rcases List.mem_append.mp hmem' with hmem'' | hmem''
            · obtain ⟨f, hf, hfsome, hfeq⟩ := req_msgs d requiredFields _ hmem''
              have heq : "source" = f :=
                reqMsg_inj_on "source" hsa f (required_subset_accessed f hf) hfeq
              rw [← heq, hsrc] at hfsome
              exact Bool.noConfusion hfsome
            · rcases mem_ite_or _ _ _ _ hmem'' with hx | hx
              · exact reqMsg_ne_alnum "source" hsa (List.mem_singleton.mp hx)
              · cases hx
          · obtain ⟨c, hc, hceq⟩ := cs_msgs d checksumFields false _ hmem'
            exact reqMsg_ne_csMsg "source" hsa c hc hceq

/-- C9: `validate` has a totality precondition: on any descriptor whose mapping lacks
one of the keys it reads — a required field, `source`, or one of the five checksum
fields — and whose `name`, when bound, is a string, `validate` raises an uncaught
`KeyError` for an absent key instead of recording a validation finding for it: no
`<key> field is required` error is appended for the raising absent key. -/
theorem C9_absent_key_raises (d : Data)
    (hname : ∀ v, List.lookup "name" d = some v → ∃ s, v = Value.str s)
    (hmiss : ∃ k ∈ accessedFields, List.lookup k d = none) :
    ∃ k, k ∈ accessedFields ∧ List.lookup k d = none ∧
      ((freshPackage d).validate).2 = some (.keyError k) ∧
      reqMsg k ∉ ((freshPackage d).validate).1._errors := by
  obtain ⟨k, hka, hkabs, hraise, hnomem⟩ := validateCore_raises_absent d hname hmiss
  obtain ⟨h1, h2⟩ := validate_fresh_raise d _ hraise
  exact ⟨k, hka, hkabs, h1, by rw [h2]; exact hnomem⟩

/-- `dGood` without its `sha384sums` entry. -/
def dNoSha384 : Data := dGood.filter (fun p => p.1 ≠ "sha384sums")

/-- C9 witness: `C9_absent_key_raises` applied to `dGood` stripped of `sha384sums`. -/
theorem C9_absent_key_raises_witness :
    (∃ k, k ∈ accessedFields ∧ List.lookup k dNoSha384 = none ∧
      ((freshPackage dNoSha384).validate).2 = some (.keyError k) ∧
      reqMsg k ∉ ((freshPackage dNoSha384).validate).1._errors) :=
  C9_absent_key_raises dNoSha384
    (by intro v hv; exact ⟨"foo", by cases hv; rfl⟩)
    ⟨"sha384sums", by decide, by decide⟩

end Aur
